import Mathlib

/-!
# Food Truck POS — verification of spec claims

Shallow embedding of the food-truck point-of-sale system
(`src/frontend/src/App.tsx` and the spec's backend components) together
with proofs of the frozen specification claims.

Money is represented exactly: frontend cart arithmetic in `ℚ` (dollars),
backend order amounts in `Nat` (cents).
-/

namespace FoodTruckPos

/-! ## Frontend cart model (src/frontend/src/App.tsx)

`MenuItem`, `CartItem` mirror the TypeScript interfaces; `addToCart`,
`removeFromCart` mirror the cart mutators (App.tsx lines 604-634), and
`cartSubtotal` / `cartTax` / `cartTotal` the totals block (lines 734-737). -/

structure MenuItem where
  id : Nat
  price : ℚ
  is_available : Bool
deriving DecidableEq, Repr

structure CartItem where
  menu_item : MenuItem
  quantity : Nat
deriving DecidableEq, Repr

/-- Function `addToCart` from App.tsx (lines 604-619): unavailable items are ignored;
an item already in the cart has its single entry's quantity incremented;
otherwise a fresh entry with quantity 1 is appended. -/
def addToCart (item : MenuItem) (cart : List CartItem) : List CartItem :=
  if item.is_available = false then cart
  else if cart.any (fun c => c.menu_item.id == item.id) then
    cart.map (fun c =>
      if c.menu_item.id = item.id then { c with quantity := c.quantity + 1 } else c)
  else cart ++ [{ menu_item := item, quantity := 1 }]

/-- Function `removeFromCart` from App.tsx (lines 622-634): an entry with quantity > 1
is decremented, otherwise every entry with the id is dropped. -/
def removeFromCart (itemId : Nat) (cart : List CartItem) : List CartItem :=
  match cart.find? (fun c => c.menu_item.id == itemId) with
  | some c =>
    if 1 < c.quantity then
      cart.map (fun x =>
        if x.menu_item.id = itemId then { x with quantity := x.quantity - 1 } else x)
    else cart.filter (fun x => !(x.menu_item.id == itemId))
  | none => cart.filter (fun x => !(x.menu_item.id == itemId))

/-- Definition `cartSubtotal` (App.tsx line 734): `cart.reduce((sum, c) => sum + price * qty, 0)`. -/
def cartSubtotal (cart : List CartItem) : ℚ :=
  cart.foldl (fun sum c => sum + c.menu_item.price * (c.quantity : ℚ)) 0

/-- Definition `cartTax` (App.tsx line 735): `cartSubtotal * 0.0875`. -/
def cartTax (cart : List CartItem) : ℚ :=
  cartSubtotal cart * (875 / 10000 : ℚ)

/-- Definition `cartTotalBeforeDiscount` (App.tsx line 736). -/
def cartTotalBeforeDiscount (cart : List CartItem) : ℚ :=
  cartSubtotal cart + cartTax cart

/-- Definition `cartTotal` (App.tsx line 737): `Math.max(0, cartTotalBeforeDiscount - loyaltyDiscount)`. -/
def cartTotal (cart : List CartItem) (loyaltyDiscount : ℚ) : ℚ :=
  max 0 (cartTotalBeforeDiscount cart - loyaltyDiscount)

/-- The menu-item ids of the cart entries, in order. -/
def cartKeys (cart : List CartItem) : List Nat :=
  cart.map (fun c => c.menu_item.id)

/-- Total quantity of units in the cart. -/
def cartUnits (cart : List CartItem) : Nat :=
  (cart.map (fun c => c.quantity)).sum

/-- The cart invariant: every entry has quantity ≥ 1, and the menu-item ids
of the entries are pairwise distinct. -/
def CartInv (cart : List CartItem) : Prop :=
  (∀ c ∈ cart, 1 ≤ c.quantity) ∧ (cartKeys cart).Nodup

instance : DecidablePred CartInv := fun cart => by
  unfold CartInv cartKeys
  infer_instance

/-! ### Cart lemmas -/

lemma cartKeys_map_preserved (cart : List CartItem) (f : CartItem → CartItem)
    (hf : ∀ c, (f c).menu_item = c.menu_item) :
    cartKeys (cart.map f) = cartKeys cart := by
  unfold cartKeys
  rw [List.map_map]
  apply List.map_congr_left
  intro c _
  simp [hf c]

lemma cartKeys_filter_sublist (cart : List CartItem) (p : CartItem → Bool) :
    List.Sublist (cartKeys (cart.filter p)) (cartKeys cart) := by
  unfold cartKeys
  exact (List.filter_sublist cart).map _

/-- With pairwise-distinct keys, two cart entries with the same menu-item id
are the same entry. -/
lemma cart_entry_unique {cart : List CartItem} (hnd : (cartKeys cart).Nodup)
    {x y : CartItem} (hx : x ∈ cart) (hy : y ∈ cart)
    (hkey : x.menu_item.id = y.menu_item.id) : x = y := by
  unfold cartKeys at hnd
  exact List.inj_on_of_nodup_map hnd hx hy hkey

lemma cartInv_addToCart (item : MenuItem) (cart : List CartItem)
    (h : CartInv cart) : CartInv (addToCart item cart) := by
  obtain ⟨hq, hnd⟩ := h
  unfold addToCart
  split
  · exact ⟨hq, hnd⟩
  · split
    · constructor
      · intro c hc
        rw [List.mem_map] at hc
        obtain ⟨c₀, hc₀, rfl⟩ := hc
        split
        · show 1 ≤ c₀.quantity + 1
          omega
        · exact hq c₀ hc₀
      · rw [cartKeys_map_preserved]
        · exact hnd
        · intro c
          split <;> rfl
    · constructor
      · intro c hc
        rcases List.mem_append.mp hc with h₁ | h₂
        · exact hq c h₁
        · simp at h₂
          simp [h₂]
      · unfold cartKeys
        rw [List.map_append, List.nodup_append]
        refine ⟨hnd, List.nodup_singleton _, ?_⟩
        intro a ha hb
        simp only [List.map_cons, List.map_nil, List.mem_singleton] at hb
        subst hb
        rename_i hnotin
        rw [List.mem_map] at ha
        obtain ⟨c₀, hc₀, hk⟩ := ha
        apply hnotin
        rw [List.any_eq_true]
        exact ⟨c₀, hc₀, by simpa using hk⟩

lemma cartInv_removeFromCart (itemId : Nat) (cart : List CartItem)
    (h : CartInv cart) : CartInv (removeFromCart itemId cart) := by
  obtain ⟨hq, hnd⟩ := h
  have hfilter : CartInv (cart.filter (fun x => !(x.menu_item.id == itemId))) := by
    constructor
    · intro c hc
      exact hq c (List.mem_of_mem_filter hc)
    · exact hnd.sublist (cartKeys_filter_sublist cart _)
  unfold removeFromCart
  split
  · rename_i c hfind
    have hc_mem : c ∈ cart := List.mem_of_find?_eq_some hfind
    have hc_key : c.menu_item.id = itemId := by
      have := List.find?_some hfind
      simpa using this
    split
    · rename_i hgt
      constructor
      · intro x hx
        rw [List.mem_map] at hx
        obtain ⟨x₀, hx₀, rfl⟩ := hx
        split
        · rename_i heq
          have hxc : x₀ = c :=
            cart_entry_unique hnd hx₀ hc_mem (by rw [heq, hc_key])
          rw [hxc]
          show 1 ≤ c.quantity - 1
          omega
        · exact hq x₀ hx₀
      · rw [cartKeys_map_preserved]
        · exact hnd
        · intro x
          split <;> rfl
    · exact hfilter
  · exact hfilter

lemma map_bump_eq_self {cart : List CartItem} {i : Nat}
    (h : ∀ c ∈ cart, c.menu_item.id ≠ i) :
    cart.map (fun c =>
      if c.menu_item.id = i then { c with quantity := c.quantity + 1 } else c) = cart := by
  conv_rhs => rw [← List.map_id cart]
  apply List.map_congr_left
  intro c hc
  rw [if_neg (h c hc)]
  rfl

lemma cartUnits_cons (c : CartItem) (cart : List CartItem) :
    cartUnits (c :: cart) = c.quantity + cartUnits cart := by
  simp [cartUnits]

lemma cartUnits_map_bump {cart : List CartItem} {i : Nat}
    (hnd : (cartKeys cart).Nodup) (hmem : ∃ c ∈ cart, c.menu_item.id = i) :
    cartUnits (cart.map (fun c =>
      if c.menu_item.id = i then { c with quantity := c.quantity + 1 } else c))
      = cartUnits cart + 1 := by
  induction cart with
  | nil => simp at hmem
  | cons x xs ih =>
    have hnd' : (∀ y ∈ xs, ¬ y.menu_item.id = x.menu_item.id) ∧
        (List.map (fun c => c.menu_item.id) xs).Nodup := by
      simpa [cartKeys] using hnd
    have hnd_xs : (cartKeys xs).Nodup := hnd'.2
    obtain ⟨c, hc, hkey⟩ := hmem
    by_cases hxi : x.menu_item.id = i
    · have hxs_ne : ∀ y ∈ xs, y.menu_item.id ≠ i := by
        intro y hy hyk
        exact hnd'.1 y hy (by rw [hyk, hxi])
      rw [List.map_cons, if_pos hxi, map_bump_eq_self hxs_ne,
        cartUnits_cons, cartUnits_cons]
      show x.quantity + 1 + cartUnits xs = x.quantity + cartUnits xs + 1
      omega
    · have hc_xs : c ∈ xs := by
        rcases List.mem_cons.mp hc with rfl | h
        · exact absurd hkey hxi
        · exact h
      rw [List.map_cons, if_neg hxi, cartUnits_cons, cartUnits_cons,
        ih hnd_xs ⟨c, hc_xs, hkey⟩]
      omega

lemma cartUnits_addToCart (item : MenuItem) (cart : List CartItem)
    (hinv : CartInv cart) (hav : item.is_available = true) :
    cartUnits (addToCart item cart) = cartUnits cart + 1 := by
  unfold addToCart
  rw [if_neg (by simp [hav])]
  split
  · rename_i hany
    rw [List.any_eq_true] at hany
    obtain ⟨c, hc, hk⟩ := hany
    exact cartUnits_map_bump hinv.2 ⟨c, hc, by simpa using hk⟩
  · simp [cartUnits]

lemma removeFromCart_at_one (itemId : Nat) (cart : List CartItem) (c : CartItem)
    (hinv : CartInv cart) (hc : c ∈ cart) (hkey : c.menu_item.id = itemId)
    (hq : c.quantity = 1) :
    removeFromCart itemId cart = cart.filter (fun x => !(x.menu_item.id == itemId)) := by
  rcases hfind : cart.find? (fun x => x.menu_item.id == itemId) with _ | c'
  · rw [List.find?_eq_none] at hfind
    exact absurd (by simp [hkey] : (fun x => x.menu_item.id == itemId) c = true)
      (by simpa using hfind c hc)
  · have hc'_mem := List.mem_of_find?_eq_some hfind
    have hc'_key : c'.menu_item.id = itemId := by simpa using List.find?_some hfind
    have hcc : c' = c := cart_entry_unique hinv.2 hc'_mem hc (by rw [hc'_key, hkey])
    unfold removeFromCart
    simp only [hfind, hcc]
    rw [if_neg (by omega)]

/-! ## Order status state machine

The FastAPI backend (`app/routers/orders.py` and friends, referenced by the
repository README) is not under `src/`; the state machine is therefore
modelled from the spec. -/

inductive Status where
  | pending
  | preparing
  | ready
  | completed
  | cancelled
deriving DecidableEq, Repr

inductive TransitionError where
  | InvalidTransition
  | PaymentRequired
deriving DecidableEq, Repr

/-- Modelled from the spec: the backend OrderStateMachine transition table
(spec §4.1; the FastAPI backend is not under src/). Allowed edges:
pending→preparing, pending→cancelled, preparing→ready, preparing→cancelled,
ready→completed. -/
def allowedTransition : Status → Status → Bool
  | .pending, .preparing => true
  | .pending, .cancelled => true
  | .preparing, .ready => true
  | .preparing, .cancelled => true
  | .ready, .completed => true
  | _, _ => false

/-- Backend order record: money fields are cents. -/
structure OrderRec where
  id : Nat
  status : Status
  is_paid : Bool
  subtotal : Nat
  tax : Nat
  total : Nat
deriving DecidableEq, Repr

/-- Modelled from the spec: `PATCH /orders/{id}/status`. Any requested pair
outside the transition table fails with `InvalidTransition`; marking an order
`completed` additionally requires `paid = true`, otherwise it fails with
`PaymentRequired`. -/
def updateStatus (o : OrderRec) (s : Status) : Except TransitionError OrderRec :=
  if allowedTransition o.status s then
    if s = .completed ∧ o.is_paid = false then .error .PaymentRequired
    else .ok { o with status := s }
  else .error .InvalidTransition

lemma updateStatus_ok_eq {o o' : OrderRec} {s : Status}
    (h : updateStatus o s = .ok o') : o' = { o with status := s } := by
  unfold updateStatus at h
  split at h
  · split at h
    · exact absurd h (by simp)
    · exact (Except.ok.injEq _ _ ▸ congrArg id h).symm ▸ by
        cases h
        rfl
  · exact absurd h (by simp)

lemma updateStatus_ok_allowed {o o' : OrderRec} {s : Status}
    (h : updateStatus o s = .ok o') : allowedTransition o.status s = true := by
  unfold updateStatus at h
  split at h
  · assumption
  · exact absurd h (by simp)

/-! ## Order creation and the order store

Modelled from the spec: `POST /orders` computes subtotal from the line items
(price snapshots taken from the current menu), tax from the fixed 8.75% rate
with half-up rounding to the cent, and `total = subtotal + tax`. -/

/-- Modelled from the spec: tax at order creation — the fixed rate
`TAX_RATE = 0.0875` (README) applied to the subtotal in cents, rounded
half-up to the nearest cent (backend `app/routers/orders.py` is absent
from src/). -/
def taxCents (subtotalCents : Nat) : Nat := (subtotalCents * 875 + 5000) / 10000

structure BackMenuItem where
  id : Nat
  priceCents : Nat
  is_available : Bool
deriving DecidableEq, Repr

structure BackOrderItem where
  menu_item_id : Nat
  quantity : Nat
  unit_priceCents : Nat
deriving DecidableEq, Repr

def backItemSubtotal (i : BackOrderItem) : Nat := i.quantity * i.unit_priceCents

def orderSubtotal (items : List BackOrderItem) : Nat :=
  (items.map backItemSubtotal).sum

/-- Modelled from the spec: order creation snapshots each requested menu
item's current price; an unknown or unavailable id rejects the request. -/
def snapshotItems (menu : List BackMenuItem) (req : List (Nat × Nat)) :
    Option (List BackOrderItem) :=
  req.mapM (fun p =>
    (menu.find? (fun m => m.id == p.1)).bind (fun m =>
      if m.is_available then some ⟨p.1, p.2, m.priceCents⟩ else none))

/-- Modelled from the spec: the created order with computed
subtotal/tax/total and initial status `pending`, unpaid. -/
def mkOrder (oid : Nat) (items : List BackOrderItem) : OrderRec :=
  let s := orderSubtotal items
  { id := oid, status := .pending, is_paid := false,
    subtotal := s, tax := taxCents s, total := s + taxCents s }

structure Store where
  menu : List BackMenuItem
  orders : List OrderRec
  nextId : Nat
deriving DecidableEq, Repr

/-- The operations that can touch the store after start-up: order creation,
menu edits (price change, availability toggle), status transitions and
payments. -/
inductive Op where
  | create (req : List (Nat × Nat))
  | editPrice (id priceCents : Nat)
  | toggleAvail (id : Nat)
  | setStatus (oid : Nat) (s : Status)
  | pay (oid : Nat)
deriving DecidableEq, Repr

/-- Modelled from the spec: the effect of each operation on the store.
Order records are only ever mutated through the state machine
(`updateStatus`) or the payment flow (paid flag); menu edits touch the menu
alone. Invalid requests leave the store unchanged. -/
def applyOp (st : Store) : Op → Store
  | .create req =>
    match snapshotItems st.menu req with
    | some items =>
      if req = [] ∨ req.any (fun p => p.2 == 0) then st
      else { st with orders := st.orders ++ [mkOrder st.nextId items],
                     nextId := st.nextId + 1 }
    | none => st
  | .editPrice i p =>
    { st with menu := st.menu.map (fun m =>
        if m.id = i then { m with priceCents := p } else m) }
  | .toggleAvail i =>
    { st with menu := st.menu.map (fun m =>
        if m.id = i then { m with is_available := !m.is_available } else m) }
  | .setStatus oid s =>
    { st with orders := st.orders.map (fun o =>
        if o.id = oid then
          match updateStatus o s with
          | .ok o' => o'
          | .error _ => o
        else o) }
  | .pay oid =>
    { st with orders := st.orders.map (fun o =>
        if o.id = oid ∧ o.is_paid = false then { o with is_paid := true } else o) }

def initStore (menu : List BackMenuItem) : Store := ⟨menu, [], 1⟩

def applyOps (st : Store) (ops : List Op) : Store := ops.foldl applyOp st

/-- The order-money invariant: every stored order satisfies
`total = subtotal + tax`. -/
def TotalInv (st : Store) : Prop := ∀ o ∈ st.orders, o.total = o.subtotal + o.tax

lemma totalInv_applyOp {st : Store} (h : TotalInv st) (op : Op) :
    TotalInv (applyOp st op) := by
  cases op with
  | create req =>
    intro o ho
    simp only [applyOp] at ho
    split at ho
    · split at ho
      · exact h o ho
      · rcases List.mem_append.mp ho with h₁ | h₂
        · exact h o h₁
        · simp only [List.mem_singleton] at h₂
          subst h₂
          rfl
    · exact h o ho
  | editPrice i p => exact h
  | toggleAvail i => exact h
  | setStatus oid s =>
    intro o ho
    simp only [applyOp, List.mem_map] at ho
    obtain ⟨o₀, ho₀, rfl⟩ := ho
    split
    · cases hup : updateStatus o₀ s with
      | ok o' =>
        rw [updateStatus_ok_eq hup]
        exact h o₀ ho₀
      | error e => exact h o₀ ho₀
    · exact h o₀ ho₀
  | pay oid =>
    intro o ho
    simp only [applyOp, List.mem_map] at ho
    obtain ⟨o₀, ho₀, rfl⟩ := ho
    split
    · exact h o₀ ho₀
    · exact h o₀ ho₀

lemma totalInv_applyOps {st : Store} (h : TotalInv st) (ops : List Op) :
    TotalInv (applyOps st ops) := by
  induction ops generalizing st with
  | nil => exact h
  | cons op ops ih =>
    rw [applyOps, List.foldl_cons]
    exact ih (totalInv_applyOp h op)

lemma totalInv_init (menu : List BackMenuItem) : TotalInv (initStore menu) := by
  intro o ho
  simp [initStore] at ho

/-! ## Payments

The frontend side (`processPayment`, App.tsx lines 826-855) computes the
tendered amount and the displayed change; the backend `POST /payments`
endpoint, absent from src/, is modelled from the spec. -/

inductive PayMethod where
  | cash
  | card
deriving DecidableEq, Repr

/-- App.tsx line 830: `const totalWithTip = order.total + tip`. -/
def totalWithTip (total tip : ℚ) : ℚ := total + tip

/-- App.tsx line 831: `const cash = method === 'cash' && cashTendered ?
parseFloat(cashTendered) : totalWithTip` (`none` models the empty input). -/
def tenderedCash (method : PayMethod) (cashTendered : Option ℚ) (twt : ℚ) : ℚ :=
  match method, cashTendered with
  | .cash, some t => t
  | _, _ => twt

/-- App.tsx line 846: `const change = method === 'cash' ? cash - totalWithTip : 0`. -/
def displayedChange (method : PayMethod) (cash twt : ℚ) : ℚ :=
  match method with
  | .cash => cash - twt
  | .card => 0

inductive PaymentError where
  | AlreadyPaid
  | InsufficientTendered
deriving DecidableEq, Repr

structure PaymentRec where
  amount : ℚ
  tip : ℚ
  method : PayMethod
  tendered : ℚ
  change : ℚ
deriving DecidableEq, Repr

/-- Modelled from the spec: the backend `POST /payments` (PaymentProcessor,
not under src/). A second payment on a paid order fails; cash with tendered
< total+tip is rejected; cash without an explicit tendered amount is treated
as exact payment (change 0); card payments never compute change. -/
def processPaymentServer (total tip : ℚ) (method : PayMethod)
    (cashTendered : Option ℚ) (alreadyPaid : Bool) :
    Except PaymentError PaymentRec :=
  if alreadyPaid then .error .AlreadyPaid
  else
    match method, cashTendered with
    | .cash, some t =>
      if t < total + tip then .error .InsufficientTendered
      else .ok ⟨total, tip, .cash, t, t - (total + tip)⟩
    | .cash, none => .ok ⟨total, tip, .cash, total + tip, 0⟩
    | .card, _ => .ok ⟨total, tip, .card, total + tip, 0⟩

/-! ## Shift ledger

The backend ShiftLedger is modelled from the spec; the Close Shift modal's
expected-cash and variance formulas are embedded from App.tsx lines
2085-2110. -/

structure Shift where
  staff_name : String
  starting_cash : ℚ
  total_orders : Nat
  total_revenue : ℚ
  total_tips : ℚ
  cash_sales : ℚ
  card_sales : ℚ
deriving DecidableEq, Repr

/-- Modelled from the spec: `POST /shifts/start` creates a fresh shift with
the given starting cash and zeroed running totals (backend not under src/). -/
def startShift (staff : String) (startingCash : ℚ) : Shift :=
  ⟨staff, startingCash, 0, 0, 0, 0, 0⟩

/-- Modelled from the spec: every accepted payment while a shift is active
increments total_orders, adds the amount to total_revenue, the tip to
total_tips, and the base amount (tip excluded) to exactly one of
cash_sales/card_sales. -/
def recordPaymentOnShift (s : Shift) (amount tip : ℚ) (method : PayMethod) :
    Shift :=
  { s with
    total_orders := s.total_orders + 1
    total_revenue := s.total_revenue + amount
    total_tips := s.total_tips + tip
    cash_sales := if method = .cash then s.cash_sales + amount else s.cash_sales
    card_sales := if method = .card then s.card_sales + amount else s.card_sales }

/-- Modelled from the spec: expected cash = starting_cash + cash_sales. -/
def expectedCash (s : Shift) : ℚ := s.starting_cash + s.cash_sales

/-- Modelled from the spec: `POST /shifts/close` computes
`variance = ending_cash − expected_cash` (backend not under src/). -/
def closeVariance (s : Shift) (endingCash : ℚ) : ℚ := endingCash - expectedCash s

/-- App.tsx line 2088: `Expected Cash: starting_cash + cash_sales`. -/
def displayedExpectedCash (startingCash cashSales : ℚ) : ℚ :=
  startingCash + cashSales

/-- App.tsx line 2107: `Variance: parseFloat(endingCash) - (starting_cash +
cash_sales)`. -/
def displayedVariance (endingCash startingCash cashSales : ℚ) : ℚ :=
  endingCash - (startingCash + cashSales)

/-! ## Queue and kitchen projections and views

The backend projections (`GET /orders/queue`, `GET /kitchen/orders`) are
modelled from the spec; the queue view's section filters are embedded from
App.tsx lines 1609, 1638 and 1655 (the pending section is rendered only when
`customerDisplayMode` is off). The kitchen view renders every fetched
kitchen order (lines 1694-1740), so its displayed set is the kitchen
projection itself. -/

/-- Modelled from the spec: QueueProjector — the queue endpoint returns the
orders whose status is pending, preparing or ready (backend not under src/). -/
def queueProjection (orders : List OrderRec) : List OrderRec :=
  orders.filter (fun o =>
    decide (o.status = .pending ∨ o.status = .preparing ∨ o.status = .ready))

/-- Modelled from the spec: KitchenProjector — the kitchen endpoint returns
the orders whose status is pending or preparing only (backend not under src/). -/
def kitchenProjection (orders : List OrderRec) : List OrderRec :=
  orders.filter (fun o => decide (o.status = .pending ∨ o.status = .preparing))

/-- The queue view's displayed orders (App.tsx lines 1602-1673): the
Preparing section, then the Ready section, then — only when
`customerDisplayMode` is off — the pending section. -/
def queueDisplayed (customerDisplayMode : Bool) (queue : List OrderRec) :
    List OrderRec :=
  queue.filter (fun q => decide (q.status = .preparing)) ++
  queue.filter (fun q => decide (q.status = .ready)) ++
  (if customerDisplayMode then []
   else queue.filter (fun q => decide (q.status = .pending)))

/-! ## POS Orders view status actions (App.tsx lines 1527-1563) -/

inductive PosAction where
  | startPrep
  | markReady
  | pay
  | complete
deriving DecidableEq, Repr

/-- The action buttons rendered on an order card: Start Prep when pending,
Ready! when preparing, Pay when ready and unpaid, Complete when ready and
paid. -/
def orderCardActions (o : OrderRec) : List PosAction :=
  (if o.status = .pending then [.startPrep] else []) ++
  (if o.status = .preparing then [.markReady] else []) ++
  (if o.status = .ready ∧ o.is_paid = false then [.pay] else []) ++
  (if o.status = .ready ∧ o.is_paid = true then [.complete] else [])

/-- The status each button requests through `updateOrderStatus` (the Pay
button opens the payment modal instead). -/
def actionRequest : PosAction → Option Status
  | .startPrep => some .preparing
  | .markReady => some .ready
  | .complete => some .completed
  | .pay => none

/-! ## Display rounding and the worked example -/

/-- JavaScript's `toFixed(2)` on a nonnegative dollar amount: the value in
cents, rounded to the nearest integer with ties away from zero (= half-up
for nonnegative amounts). -/
def displayCents (q : ℚ) : ℤ := ⌊q * 100 + 1 / 2⌋

/-- The spec's worked example cart: one $4.00 item and one $6.50 item. -/
def exampleCart : List CartItem :=
  [⟨⟨1, 4, true⟩, 1⟩, ⟨⟨2, 13 / 2, true⟩, 1⟩]

/-- The same example order as the backend creates it, prices in cents. -/
def exampleOrderItems : List BackOrderItem :=
  [⟨1, 1, 400⟩, ⟨2, 1, 650⟩]

/-! ## Further helper lemmas -/

lemma foldl_add_eq_sum (f : CartItem → ℚ) (cart : List CartItem) (a : ℚ) :
    cart.foldl (fun sum c => sum + f c) a = a + (cart.map f).sum := by
  induction cart generalizing a with
  | nil => simp
  | cons x xs ih =>
    rw [List.foldl_cons, ih, List.map_cons, List.sum_cons]
    ring

lemma cartSubtotal_eq_sum (cart : List CartItem) :
    cartSubtotal cart =
      (cart.map (fun c => c.menu_item.price * (c.quantity : ℚ))).sum := by
  unfold cartSubtotal
  rw [foldl_add_eq_sum]
  ring

lemma cartSubtotal_nonneg (cart : List CartItem)
    (h : ∀ c ∈ cart, 0 ≤ c.menu_item.price) : 0 ≤ cartSubtotal cart := by
  rw [cartSubtotal_eq_sum]
  apply List.sum_nonneg
  intro x hx
  rw [List.mem_map] at hx
  obtain ⟨c, hc, rfl⟩ := hx
  exact mul_nonneg (h c hc) (by positivity)

lemma mem_orderCardActions {o : OrderRec} {a : PosAction}
    (h : a ∈ orderCardActions o) :
    (a = .startPrep ∧ o.status = .pending) ∨
    (a = .markReady ∧ o.status = .preparing) ∨
    (a = .pay ∧ o.status = .ready ∧ o.is_paid = false) ∨
    (a = .complete ∧ o.status = .ready ∧ o.is_paid = true) := by
  unfold orderCardActions at h
  rcases List.mem_append.mp h with h' | h₄
  · rcases List.mem_append.mp h' with h'' | h₃
    · rcases List.mem_append.mp h'' with h₁ | h₂
      · left
        split at h₁
        · exact ⟨by simpa using h₁, by assumption⟩
        · simp at h₁
      · right; left
        split at h₂
        · exact ⟨by simpa using h₂, by assumption⟩
        · simp at h₂
    · right; right; left
      split at h₃
      · rename_i hc
        exact ⟨by simpa using h₃, hc.1, hc.2⟩
      · simp at h₃
  · right; right; right
    split at h₄
    · rename_i hc
      exact ⟨by simpa using h₄, hc.1, hc.2⟩
    · simp at h₄

lemma processPaymentServer_cash_some (total tip t : ℚ) (ap : Bool) :
    processPaymentServer total tip .cash (some t) ap =
      if ap then .error .AlreadyPaid
      else if t < total + tip then .error .InsufficientTendered
      else .ok ⟨total, tip, .cash, t, t - (total + tip)⟩ := by
  cases ap <;> rfl

lemma processPaymentServer_cash_none (total tip : ℚ) (ap : Bool) :
    processPaymentServer total tip .cash none ap =
      if ap then .error .AlreadyPaid
      else .ok ⟨total, tip, .cash, total + tip, 0⟩ := by
  cases ap <;> rfl

lemma processPaymentServer_card (total tip : ℚ) (ct : Option ℚ) (ap : Bool) :
    processPaymentServer total tip .card ct ap =
      if ap then .error .AlreadyPaid
      else .ok ⟨total, tip, .card, total + tip, 0⟩ := by
  cases ap <;> cases ct <;> rfl

/-! ## Claims -/

/-- C1 counterexample: in the current App.tsx a positive loyalty discount
makes the displayed cart total differ from `cartSubtotal + cartTax` — for a
single $4.00 item and a $5 reward the displayed total is 0, not $4.35. -/
theorem c1_counterexample :
    cartTotal [⟨⟨1, 4, true⟩, 1⟩] 5 ≠
      cartSubtotal [⟨⟨1, 4, true⟩, 1⟩] + cartTax [⟨⟨1, 4, true⟩, 1⟩] := by
  have hs : cartSubtotal [⟨⟨1, 4, true⟩, 1⟩] = 4 := by
    norm_num [cartSubtotal]
  have ht : cartTax [⟨⟨1, 4, true⟩, 1⟩] = 35 / 100 := by
    unfold cartTax
    rw [hs]
    norm_num
  unfold cartTotal cartTotalBeforeDiscount
  rw [hs, ht, max_eq_left (by norm_num)]
  norm_num

/-- C1 (amended): every order in the store satisfies `total = subtotal + tax`
after any sequence of operations (creation establishes it, status changes,
payments and menu edits preserve it — menu edits do not touch stored orders
at all); and the displayed cart total equals `cartSubtotal + cartTax`
whenever no loyalty discount is applied (prices being nonnegative). -/
theorem c1_order_total_invariant :
    (∀ (menu : List BackMenuItem) (ops : List Op),
      TotalInv (applyOps (initStore menu) ops)) ∧
    (∀ (st : Store) (i p : Nat),
      (applyOp st (Op.editPrice i p)).orders = st.orders) ∧
    (∀ (st : Store) (i : Nat),
      (applyOp st (Op.toggleAvail i)).orders = st.orders) ∧
    (∀ cart : List CartItem, (∀ c ∈ cart, 0 ≤ c.menu_item.price) →
      cartTotal cart 0 = cartSubtotal cart + cartTax cart) := by
  refine ⟨fun menu ops => totalInv_applyOps (totalInv_init menu) ops,
    fun st i p => rfl, fun st i => rfl, ?_⟩
  intro cart hpos
  have hsub : 0 ≤ cartSubtotal cart := cartSubtotal_nonneg cart hpos
  have htax : 0 ≤ cartTax cart := by
    unfold cartTax
    positivity
  unfold cartTotal cartTotalBeforeDiscount
  rw [sub_zero, max_eq_right (by linarith)]

/-- C1 witness: the displayed total of the worked-example cart with no
discount equals subtotal plus tax. -/
theorem c1_witness :
    cartTotal exampleCart 0 = cartSubtotal exampleCart + cartTax exampleCart :=
  c1_order_total_invariant.2.2.2 exampleCart (by norm_num [exampleCart])

/-- C2: tax is the fixed 8.75% rate applied to the subtotal, rounded half-up
to the cent (`taxCents` is the integer nearest `0.0875 * subtotal` with ties
rounded up), and the worked example — a $4.00 item and a $6.50 item — gives
subtotal $10.50, tax $0.92 and total $11.42, both in the backend order and
in the frontend's displayed (cent-rounded) cart figures. -/
theorem c2_tax_half_up_rounding :
    (∀ s : Nat, 10000 * taxCents s ≤ 875 * s + 5000 ∧
      875 * s + 5000 < 10000 * (taxCents s + 1)) ∧
    taxCents 1050 = 92 ∧
    mkOrder 1 exampleOrderItems =
      { id := 1, status := .pending, is_paid := false,
        subtotal := 1050, tax := 92, total := 1142 } ∧
    cartSubtotal exampleCart = 21 / 2 ∧
    displayCents (cartTax exampleCart) = 92 ∧
    displayCents (cartSubtotal exampleCart + cartTax exampleCart) = 1142 := by
  have hs : cartSubtotal exampleCart = 21 / 2 := by
    norm_num [cartSubtotal, exampleCart]
  have ht : cartTax exampleCart = 147 / 160 := by
    unfold cartTax
    rw [hs]
    norm_num
  refine ⟨?_, by decide, by decide, hs, ?_, ?_⟩
  · intro s
    unfold taxCents
    have h1 := Nat.div_add_mod (s * 875 + 5000) 10000
    have h2 : (s * 875 + 5000) % 10000 < 10000 := Nat.mod_lt _ (by norm_num)
    omega
  · unfold displayCents
    rw [ht]
    norm_num
  · unfold displayCents
    rw [hs, ht]
    norm_num

/-- C3: a cash payment whose tendered amount is strictly below total + tip is
rejected by the payment endpoint, and no accepted payment ever carries a
negative change. -/
theorem c3_insufficient_cash_rejected :
    (∀ total tip t : ℚ, t < total + tip →
      processPaymentServer total tip .cash (some t) false =
        .error .InsufficientTendered) ∧
    (∀ (total tip : ℚ) (method : PayMethod) (ct : Option ℚ) (ap : Bool)
        (p : PaymentRec),
      processPaymentServer total tip method ct ap = .ok p → 0 ≤ p.change) := by
  constructor
  · intro total tip t h
    rw [processPaymentServer_cash_some, if_neg (by simp), if_pos h]
  · intro total tip method ct ap p h
    cases ap with
    | true =>
      have hpaid : processPaymentServer total tip method ct true =
          .error .AlreadyPaid := by
        cases method <;> cases ct <;> rfl
      rw [hpaid] at h
      exact absurd h (by simp)
    | false =>
      cases method with
      | cash =>
        cases ct with
        | none =>
          rw [processPaymentServer_cash_none, if_neg (by simp)] at h
          obtain rfl := Except.ok.inj h
          exact le_refl 0
        | some t =>
          rw [processPaymentServer_cash_some, if_neg (by simp)] at h
          by_cases hlt : t < total + tip
          · rw [if_pos hlt] at h
            exact absurd h (by simp)
          · rw [if_neg hlt] at h
            obtain rfl := Except.ok.inj h
            show (0 : ℚ) ≤ t - (total + tip)
            push_neg at hlt
            linarith
      | card =>
        rw [processPaymentServer_card, if_neg (by simp)] at h
        obtain rfl := Except.ok.inj h
        exact le_refl 0

/-- C3 witness: tendering $10 against the example $11.42 order with a $2 tip
is rejected. -/
theorem c3_witness :
    processPaymentServer (1142 / 100) 2 .cash (some 10) false =
      .error .InsufficientTendered ∧ (10 : ℚ) < 1142 / 100 + 2 :=
  ⟨c3_insufficient_cash_rejected.1 (1142 / 100) 2 10 (by norm_num),
    by norm_num⟩

/-- C4: for accepted payments, cash with an explicit tendered amount
≥ total + tip yields change = tendered − total − tip; cash without an
explicit tendered amount is treated as exact (change 0); card never computes
change — both in the frontend's computation and in the payment endpoint. -/
theorem c4_change_computation :
    (∀ total tip t : ℚ, total + tip ≤ t →
      displayedChange .cash
          (tenderedCash .cash (some t) (totalWithTip total tip))
          (totalWithTip total tip) = t - total - tip ∧
      processPaymentServer total tip .cash (some t) false =
        .ok ⟨total, tip, .cash, t, t - (total + tip)⟩) ∧
    (∀ total tip : ℚ,
      displayedChange .cash
          (tenderedCash .cash none (totalWithTip total tip))
          (totalWithTip total tip) = 0 ∧
      processPaymentServer total tip .cash none false =
        .ok ⟨total, tip, .cash, total + tip, 0⟩) ∧
    (∀ (total tip : ℚ) (ct : Option ℚ),
      displayedChange .card
          (tenderedCash .card ct (totalWithTip total tip))
          (totalWithTip total tip) = 0 ∧
      processPaymentServer total tip .card ct false =
        .ok ⟨total, tip, .card, total + tip, 0⟩) := by
  refine ⟨?_, ?_, ?_⟩
  · intro total tip t h
    constructor
    · show t - (total + tip) = t - total - tip
      ring
    · rw [processPaymentServer_cash_some, if_neg (by simp),
        if_neg (not_lt.mpr h)]
  · intro total tip
    refine ⟨sub_self _, ?_⟩
    rw [processPaymentServer_cash_none, if_neg (by simp)]
  · intro total tip ct
    refine ⟨rfl, ?_⟩
    rw [processPaymentServer_card, if_neg (by simp)]

/-- C4 witness: the spec's worked payment — $15 tendered against the $11.42
order with a $2 tip — yields change $15 − $11.42 − $2 = $1.58. -/
theorem c4_witness :
    (1142 / 100 : ℚ) + 2 ≤ 15 ∧
    displayedChange .cash
        (tenderedCash .cash (some 15) (totalWithTip (1142 / 100) 2))
        (totalWithTip (1142 / 100) 2) = 158 / 100 := by
  refine ⟨by norm_num, ?_⟩
  rw [(c4_change_computation.1 (1142 / 100) 2 15 (by norm_num)).1]
  norm_num

/-- C5 counterexample: requesting `completed` on an unpaid *pending* order
fails with `InvalidTransition`, not `PaymentRequired` — the transition-table
check is the one that fires off the `ready → completed` edge. -/
theorem c5_counterexample :
    updateStatus ⟨1, .pending, false, 1050, 92, 1142⟩ .completed =
      .error .InvalidTransition ∧
    updateStatus ⟨1, .pending, false, 1050, 92, 1142⟩ .completed ≠
      .error .PaymentRequired := by
  constructor
  · rfl
  · intro h
    exact absurd (Except.error.inj h) (by decide)

/-- C5 (amended): completing an unpaid order along the allowed
`ready → completed` edge fails with `PaymentRequired` (from any other source
state the request fails with `InvalidTransition` regardless of payment);
after a successful payment, completing a ready order succeeds; and the POS
Orders view offers the Complete action exactly when the order's status is
`ready` and `is_paid` is true. -/
theorem c5_payment_required :
    (∀ o : OrderRec, o.status = .ready → o.is_paid = false →
      updateStatus o .completed = .error .PaymentRequired) ∧
    (∀ o : OrderRec, o.status = .ready → o.is_paid = true →
      updateStatus o .completed = .ok { o with status := .completed }) ∧
    (∀ o : OrderRec, PosAction.complete ∈ orderCardActions o ↔
      (o.status = .ready ∧ o.is_paid = true)) := by
  refine ⟨?_, ?_, ?_⟩
  · intro o hst hpaid
    have h1 : allowedTransition Status.ready Status.completed = true := rfl
    have h2 : Status.completed = Status.completed ∧ o.is_paid = false :=
      ⟨rfl, hpaid⟩
    unfold updateStatus
    rw [hst, if_pos h1, if_pos h2]
  · intro o hst hpaid
    have h1 : allowedTransition Status.ready Status.completed = true := rfl
    have h2 : ¬(Status.completed = Status.completed ∧ o.is_paid = false) := by
      simp [hpaid]
    unfold updateStatus
    rw [hst, if_pos h1, if_neg h2]
  · intro o
    constructor
    · intro h
      rcases mem_orderCardActions h with ⟨ha, _⟩ | ⟨ha, _⟩ | ⟨ha, _⟩ | ⟨_, hst⟩
      · exact absurd ha (by simp)
      · exact absurd ha (by simp)
      · exact absurd ha (by simp)
      · exact hst
    · rintro ⟨hst, hpaid⟩
      have hcond : o.status = Status.ready ∧ o.is_paid = true := ⟨hst, hpaid⟩
      unfold orderCardActions
      rw [List.mem_append]
      right
      rw [if_pos hcond]
      exact List.mem_singleton.mpr rfl

/-- C5 witness: a concrete ready, unpaid order cannot be completed —
`PaymentRequired` — while the same order marked paid completes. -/
theorem c5_witness :
    updateStatus ⟨2, .ready, false, 1050, 92, 1142⟩ .completed =
      .error .PaymentRequired ∧
    updateStatus ⟨2, .ready, true, 1050, 92, 1142⟩ .completed =
      .ok ⟨2, .completed, true, 1050, 92, 1142⟩ :=
  ⟨c5_payment_required.1 ⟨2, .ready, false, 1050, 92, 1142⟩ rfl rfl,
    c5_payment_required.2.1 ⟨2, .ready, true, 1050, 92, 1142⟩ rfl rfl⟩

/-- C6: the step relation allows exactly the five spec edges — the
transition table holds edge-by-edge, any pair outside it fails with
`InvalidTransition`, a success implies the pair is in the table, any
in-table pair succeeds (payment permitting), and every status the POS
buttons can request lies on an allowed edge from the order's current
status. -/
theorem c6_transition_table :
    (∀ a b : Status, allowedTransition a b = true ↔
      ((a = .pending ∧ b = .preparing) ∨ (a = .pending ∧ b = .cancelled) ∨
       (a = .preparing ∧ b = .ready) ∨ (a = .preparing ∧ b = .cancelled) ∨
       (a = .ready ∧ b = .completed))) ∧
    (∀ (o : OrderRec) (s : Status), allowedTransition o.status s = false →
      updateStatus o s = .error .InvalidTransition) ∧
    (∀ (o o' : OrderRec) (s : Status), updateStatus o s = .ok o' →
      allowedTransition o.status s = true) ∧
    (∀ (o : OrderRec) (s : Status), allowedTransition o.status s = true →
      (s = .completed → o.is_paid = true) →
      updateStatus o s = .ok { o with status := s }) ∧
    (∀ (o : OrderRec) (a : PosAction) (s : Status), a ∈ orderCardActions o →
      actionRequest a = some s → allowedTransition o.status s = true) := by
  refine ⟨?_, ?_, ?_, ?_, ?_⟩
  · intro a b
    cases a <;> cases b <;> simp [allowedTransition]
  · intro o s h
    unfold updateStatus
    rw [if_neg (by simp [h])]
  · intro o o' s h
    exact updateStatus_ok_allowed h
  · intro o s hal hpay
    unfold updateStatus
    rw [if_pos hal, if_neg]
    rintro ⟨hs, hp⟩
    rw [hpay hs] at hp
    exact Bool.noConfusion hp
  · intro o a s ha hreq
    rcases mem_orderCardActions ha with ⟨rfl, hst⟩ | ⟨rfl, hst⟩ |
      ⟨rfl, hst, _⟩ | ⟨rfl, hst, _⟩
    · simp only [actionRequest, Option.some.injEq] at hreq
      rw [hst, ← hreq]
      rfl
    · simp only [actionRequest, Option.some.injEq] at hreq
      rw [hst, ← hreq]
      rfl
    · simp [actionRequest] at hreq
    · simp only [actionRequest, Option.some.injEq] at hreq
      rw [hst, ← hreq]
      rfl

/-- C6 witness: the backwards request `ready → pending` is outside the table
and fails with `InvalidTransition`. -/
theorem c6_witness :
    allowedTransition .ready .pending = false ∧
    updateStatus ⟨3, .ready, true, 0, 0, 0⟩ .pending =
      .error .InvalidTransition :=
  ⟨rfl, c6_transition_table.2.1 ⟨3, .ready, true, 0, 0, 0⟩ .pending rfl⟩

/-- C7: expected cash is `starting_cash + cash_sales`; closing computes
`variance = ending_cash − expected_cash` exactly, and the frontend's Close
Shift modal displays the same formulas; recording a cash payment raises the
expected cash by the base amount (tip excluded) while a card payment leaves
it unchanged; and the worked example — $100.00 start, one $11.42 cash sale
(any tip), $111.42 counted — closes with variance $0.00. -/
theorem c7_shift_variance :
    (∀ (s : Shift) (e : ℚ),
      closeVariance s e = e - (s.starting_cash + s.cash_sales)) ∧
    (∀ (s : Shift) (e : ℚ),
      displayedVariance e s.starting_cash s.cash_sales = closeVariance s e ∧
      displayedExpectedCash s.starting_cash s.cash_sales = expectedCash s) ∧
    (∀ (s : Shift) (amount tip : ℚ),
      expectedCash (recordPaymentOnShift s amount tip .cash) =
        expectedCash s + amount) ∧
    (∀ (s : Shift) (amount tip : ℚ),
      expectedCash (recordPaymentOnShift s amount tip .card) =
        expectedCash s) ∧
    (∀ tip : ℚ,
      closeVariance
        (recordPaymentOnShift (startShift default 100) (1142 / 100) tip .cash)
        (11142 / 100) = 0) := by
  refine ⟨fun s e => rfl, fun s e => ⟨rfl, rfl⟩, ?_, ?_, ?_⟩
  · intro s amount tip
    unfold expectedCash recordPaymentOnShift
    rw [if_pos rfl]
    show s.starting_cash + (s.cash_sales + amount) =
      s.starting_cash + s.cash_sales + amount
    ring
  · intro s amount tip
    unfold expectedCash recordPaymentOnShift
    rw [if_neg (by decide)]
  · intro tip
    unfold closeVariance expectedCash recordPaymentOnShift startShift
    rw [if_pos rfl]
    norm_num

/-- C8 counterexample: in customer display mode the queue view hides pending
orders — a pending order in the queue projection is not displayed, although
the claim says the queue shows every pending order. -/
theorem c8_counterexample :
    (⟨7, .pending, false, 400, 35, 435⟩ : OrderRec) ∈
      queueProjection [⟨7, .pending, false, 400, 35, 435⟩] ∧
    (⟨7, .pending, false, 400, 35, 435⟩ : OrderRec) ∉
      queueDisplayed true (queueProjection [⟨7, .pending, false, 400, 35, 435⟩]) := by
  constructor <;> decide

/-- C8 (amended): the queue view in standard mode displays exactly the
orders with status preparing, ready or pending; in fullscreen customer
display mode it displays exactly the preparing and ready orders (pending
hidden); and the kitchen display contains exactly the orders with status
pending or preparing, so an order leaving those statuses disappears from
it. -/
theorem c8_view_filters :
    (∀ (mode : Bool) (qs : List OrderRec) (o : OrderRec),
      o ∈ queueDisplayed mode qs ↔
        (o ∈ qs ∧ (o.status = .preparing ∨ o.status = .ready ∨
          (mode = false ∧ o.status = .pending)))) ∧
    (∀ (orders : List OrderRec) (o : OrderRec),
      o ∈ kitchenProjection orders ↔
        (o ∈ orders ∧ (o.status = .pending ∨ o.status = .preparing))) ∧
    (∀ (orders : List OrderRec) (o : OrderRec),
      o ∈ queueProjection orders ↔
        (o ∈ orders ∧
          (o.status = .pending ∨ o.status = .preparing ∨ o.status = .ready))) := by
  refine ⟨?_, ?_, ?_⟩
  · intro mode qs o
    cases mode <;>
      simp [queueDisplayed, List.mem_filter, List.mem_append] <;> tauto
  · intro orders o
    simp [kitchenProjection, List.mem_filter]
  · intro orders o
    simp [queueProjection, List.mem_filter]

/-- C9: the cart invariant — quantity ≥ 1 on every entry and at most one
entry per menu-item id — holds for the empty cart and is preserved by
`addToCart` and `removeFromCart`; adding an available item grows the total
unit count by exactly one (incrementing the existing entry when present);
and removing an item whose entry has quantity 1 deletes the entry outright
instead of leaving quantity 0. -/
theorem c9_cart_invariant :
    CartInv [] ∧
    (∀ (item : MenuItem) (cart : List CartItem), CartInv cart →
      CartInv (addToCart item cart)) ∧
    (∀ (itemId : Nat) (cart : List CartItem), CartInv cart →
      CartInv (removeFromCart itemId cart)) ∧
    (∀ (item : MenuItem) (cart : List CartItem), CartInv cart →
      item.is_available = true →
      cartUnits (addToCart item cart) = cartUnits cart + 1) ∧
    (∀ (itemId : Nat) (cart : List CartItem) (c : CartItem), CartInv cart →
      c ∈ cart → c.menu_item.id = itemId → c.quantity = 1 →
      removeFromCart itemId cart =
        cart.filter (fun x => !(x.menu_item.id == itemId))) :=
  ⟨by constructor <;> simp [cartKeys],
    cartInv_addToCart, cartInv_removeFromCart,
    cartUnits_addToCart, removeFromCart_at_one⟩

/-- C9 witness: the invariant holds on the worked-example cart, is kept when
a third item is added, and removing the quantity-1 entry for item 1 deletes
it. -/
theorem c9_witness :
    CartInv (addToCart ⟨3, 3, true⟩ exampleCart) ∧
    removeFromCart 1 exampleCart =
      exampleCart.filter (fun x => !(x.menu_item.id == 1)) :=
  ⟨c9_cart_invariant.2.1 ⟨3, 3, true⟩ exampleCart (by decide),
    c9_cart_invariant.2.2.2.2 1 exampleCart ⟨⟨1, 4, true⟩, 1⟩ (by decide)
      (by decide) rfl rfl⟩

/-- C10 counterexample: for the empty cart and a positive discount the
clamped total still equals `cartSubtotal + cartTax` (both are 0), so the
claim's "deviates whenever the discount is positive" fails there. -/
theorem c10_counterexample :
    cartTotal [] 1 = cartSubtotal [] + cartTax [] ∧ (0 : ℚ) < 1 := by
  constructor
  · unfold cartTotal cartTotalBeforeDiscount cartTax cartSubtotal
    norm_num
  · norm_num

/-- C10 (amended): the displayed cart total equals
`max(0, cartSubtotal + cartTax − loyaltyDiscount)`, hence is never negative
even when the discount exceeds subtotal plus tax; it deviates from
`cartSubtotal + cartTax` whenever the discount is positive and
subtotal + tax is itself positive. -/
theorem c10_clamped_total :
    (∀ (cart : List CartItem) (d : ℚ), 0 ≤ cartTotal cart d) ∧
    (∀ (cart : List CartItem) (d : ℚ),
      cartTotal cart d = max 0 (cartSubtotal cart + cartTax cart - d)) ∧
    (∀ (cart : List CartItem) (d : ℚ), 0 < d →
      0 < cartSubtotal cart + cartTax cart →
      cartTotal cart d ≠ cartSubtotal cart + cartTax cart) := by
  refine ⟨fun cart d => le_max_left 0 _, fun cart d => rfl, ?_⟩
  intro cart d hd hpos heq
  unfold cartTotal cartTotalBeforeDiscount at heq
  rcases le_total (cartSubtotal cart + cartTax cart - d) 0 with h | h
  · rw [max_eq_left h] at heq
    exact absurd heq.symm (ne_of_gt hpos)
  · rw [max_eq_right h] at heq
    linarith

/-- C10 witness: the worked-example cart with a $5 reward displays a total
different from subtotal plus tax. -/
theorem c10_witness :
    cartTotal exampleCart 5 ≠ cartSubtotal exampleCart + cartTax exampleCart :=
  c10_clamped_total.2.2 exampleCart 5 (by norm_num)
    (by norm_num [cartSubtotal, cartTax, exampleCart])

end FoodTruckPos
